import Mathlib

/-!
Verification of the agify Go client (single source file, package agify).

The embedding models the client faithfully at the level the code works at:

* HTTP is abstracted as a `Transport` function from a structured request
  (base URL plus ordered query key/value pairs) to an outcome: either a
  network-level failure (the error branch of the Go call `http.Get`) or a
  received response carrying a status code, headers, the bytes that
  `io.ReadAll` produced and the read error `io.ReadAll` produced.
* Response bytes are modelled as either a parsed JSON value or an opaque
  invalid blob; `json.Unmarshal` into the three Go target types
  (`Prediction`, `[]Prediction`, `errorResponse`) is implemented over that
  JSON value following Go semantics: a top-level `null` is a no-op leaving
  the zero value, unknown object keys are ignored, a missing key leaves the
  zero value, and a type mismatch is an error.
* `url.Parse` is modelled by its observable behaviour on the inputs the
  client feeds it: it fails (returns a nil pointer in Go) exactly on
  strings containing ASCII control characters, and otherwise splits the
  string at the first question mark into a base part and a raw query.
  Percent-encoding is not modelled; query values are carried structurally.
* Go `url.Values` is a multimap; the code only ever appends with `Add` and
  the claims only concern per-key multiplicity and per-key order, both of
  which an ordered pair list preserves.
* The Go code in `get` issues the request with the package-level function
  `http.Get`, which uses the process-wide default HTTP client, not the
  `http` field stored in the `Client` struct.  The embedding therefore
  carries the default transport in an explicit environment `HttpEnv` and
  `Client.get` consults that environment, mirroring the source exactly;
  the `http` field of `Client` is stored but never read, as in the source.
* In Go, calling a method on the nil pointer returned by a failed
  `url.Parse` panics; the operations return `Except Crash _` and a failed
  parse produces `Crash.nilDeref`.
-/

/-- A JSON value.  Numbers are restricted to integers: every numeric field
the client decodes has Go type `int`. -/
inductive Json where
  | null
  | bool (b : Bool)
  | num (n : Int)
  | str (s : String)
  | arr (elems : List Json)
  | obj (fields : List (String × Json))

/-- The bytes of a response body: either well-formed JSON or an opaque
blob that any `json.Unmarshal` call rejects. -/
inductive Bytes where
  | json (j : Json)
  | invalid (raw : String)

/-- A Go `error` value as produced by this client: the error of `http.Get`,
the error of `io.ReadAll`, an error from `json.Unmarshal`, or the
`errors.New(resp.Error)` value built from a decoded error payload. -/
inductive GoErr where
  | transportErr (msg : String)
  | readErr (msg : String)
  | jsonErr (msg : String)
  | errorsNew (msg : String)
  deriving DecidableEq, Repr

/-- A Go runtime panic.  The only panic reachable in this client is the
nil-pointer dereference after a discarded `url.Parse` error. -/
inductive Crash where
  | nilDeref
  deriving DecidableEq, Repr

/-- RateLimit is the rate limiting information from the API (source
part_002 lines 42-46): three verbatim header strings. -/
structure RateLimit where
  limit : String
  remaining : String
  reset : String
  deriving DecidableEq, Repr

/-- Prediction is the age prediction for a name (source part_002 lines
30-39).  JSON tags: name, age, count, country_id. -/
structure Prediction where
  name : String
  age : Int
  count : Int
  country : String
  deriving DecidableEq, Repr

/-- errorResponse is the error response from the agify API (source
part_002 lines 49-51).  JSON tag: error. -/
structure ErrorResponse where
  error : String
  deriving DecidableEq, Repr

/-- Ordered query key/value pairs, modelling Go url.Values restricted to
the operations the client uses (Add, Encode). -/
abbrev Values := List (String × String)

/-- Values.Add appends a value for a key. -/
def valuesAdd (vs : Values) (key value : String) : Values :=
  vs ++ [(key, value)]

/-- Number of pairs carrying the given key. -/
def countKey (vs : Values) (key : String) : Nat :=
  (vs.filter (fun kv => kv.1 = key)).length

/-- All values for the given key, in order. -/
def getAll (vs : Values) (key : String) : List String :=
  (vs.filter (fun kv => kv.1 = key)).map (fun kv => kv.2)

/-- A parsed URL: the part before the query, and the raw query string. -/
structure URL where
  base : String
  rawQuery : String
  deriving DecidableEq, Repr

/-- Splitting a character list at every occurrence of a separator, the
list analogue of String.splitOn for one-character separators. -/
def splitChars (sep : Char) : List Char → List (List Char)
  | [] => [[]]
  | c :: rest =>
    let r := splitChars sep rest
    if c = sep then [] :: r
    else
      match r with
      | [] => [[c]]
      | seg :: segs => (c :: seg) :: segs

/-- Joining character lists with a separator, the inverse of splitChars. -/
def joinChars (sep : Char) : List (List Char) → List Char
  | [] => []
  | [seg] => seg
  | seg :: rest => seg ++ sep :: joinChars sep rest

/-- True when the string contains an ASCII control character, the input
class on which Go url.Parse reports an error. -/
def containsCtlChar (s : String) : Bool :=
  s.data.any (fun c => c.toNat < 0x20 || c.toNat == 0x7f)

/-- Model of Go url.Parse: fails on control characters, otherwise splits
at the first question mark into base and raw query. -/
def urlParse (s : String) : Option URL :=
  if containsCtlChar s then none
  else
    match splitChars '?' s.data with
    | [] => some { base := s, rawQuery := "" }
    | [b] => some { base := String.mk b, rawQuery := "" }
    | b :: rest => some { base := String.mk b, rawQuery := String.mk (joinChars '?' rest) }

/-- Model of Go url.Values parsing as done by url.Query(): split on
ampersands, each segment at its first equals sign; empty segments are
dropped.  Percent-decoding is not modelled. -/
def parseQuery (s : String) : Values :=
  (splitChars '&' s.data).filterMap fun seg =>
    if seg = [] then none
    else
      match splitChars '=' seg with
      | [] => none
      | [k] => some (String.mk k, "")
      | k :: rest => some (String.mk k, String.mk (joinChars '=' rest))

/-- The request handed to the transport: target base URL and the encoded
query parameters, kept structurally. -/
structure Request where
  base : String
  values : Values

/-- A received HTTP response, as the client observes it: status code,
headers, and the result pair of io.ReadAll on the body (the bytes it
returned, possibly partial, and its error). -/
structure HttpResponse where
  statusCode : Nat
  headers : List (String × String)
  bodyRead : Bytes
  readErr : Option String

/-- Outcome of issuing one GET request. -/
inductive TransportOutcome where
  | failure (msg : String)
  | response (resp : HttpResponse)

/-- An HTTP transport handle (a Go http.Client at this abstraction). -/
abbrev Transport := Request → TransportOutcome

/-- The ambient process environment: the default transport used by the
package-level function http.Get. -/
structure HttpEnv where
  defaultTransport : Transport

/-- Client is the client to call agify.io (source part_002 lines 13-17). -/
structure Client where
  apiKey : String
  baseUrl : String
  http : Transport

/-- clientDefaults holds the default values for the client (source
part_002 lines 20-24). -/
structure ClientDefaults where
  apiKey : String
  baseUrl : String
  http : Transport

/-- ClientOption configures the client (source part_002 line 27). -/
abbrev ClientOption := ClientDefaults → ClientDefaults

/-- WithUrl overrides the default base URL (source part_002 lines 55-59). -/
def withUrl (baseUrl : String) : ClientOption :=
  fun client => { client with baseUrl := baseUrl }

/-- WithApiKey overrides the default API key (source part_002 lines 62-66). -/
def withApiKey (apiKey : String) : ClientOption :=
  fun client => { client with apiKey := apiKey }

/-- WithClient overrides the default http client (source part_002 lines
69-73). -/
def withClient (httpClient : Transport) : ClientOption :=
  fun client => { client with http := httpClient }

/-- NewClient creates a client to call agify.io (source part_002 lines
78-95): defaults are empty API key, the public URL, and a standard HTTP
client with default settings, which behaves as the ambient default
transport; options are applied in order over the defaults. -/
def newClient (env : HttpEnv) (opts : List ClientOption) : Client :=
  let defaults : ClientDefaults :=
    opts.foldl (fun d opt => opt d)
      { apiKey := "", baseUrl := "https://api.agify.io", http := env.defaultTransport }
  { apiKey := defaults.apiKey, baseUrl := defaults.baseUrl, http := defaults.http }

/-- First header value for a key, empty string when absent (Go
Header.Get). -/
def headerGet : List (String × String) → String → String
  | [], _ => ""
  | (k, v) :: rest, key => if k = key then v else headerGet rest key

/-- The RateLimit built in get (source part_002 lines 180-184) from the
three rate-limit headers. -/
def mkRateLimit (headers : List (String × String)) : RateLimit :=
  { limit := headerGet headers "X-Rate-Limit-Limit"
    remaining := headerGet headers "X-Rate-Limit-Remaining"
    reset := headerGet headers "X-Rate-Reset" }

/-- The zero value of the Prediction struct. -/
def zeroPrediction : Prediction :=
  { name := "", age := 0, count := 0, country := "" }

/-- Decoding one JSON object field into a Prediction, Go json semantics:
tags name, age, count, country_id; null leaves the field; unknown keys
are ignored; a type mismatch is an error. -/
def setPredField (p : Prediction) (key : String) (v : Json) : Except String Prediction :=
  if key = "name" then
    match v with
    | .str s => .ok { p with name := s }
    | .null => .ok p
    | _ => .error "json: cannot unmarshal value into field name of type string"
  else if key = "age" then
    match v with
    | .num n => .ok { p with age := n }
    | .null => .ok p
    | _ => .error "json: cannot unmarshal value into field age of type int"
  else if key = "count" then
    match v with
    | .num n => .ok { p with count := n }
    | .null => .ok p
    | _ => .error "json: cannot unmarshal value into field count of type int"
  else if key = "country_id" then
    match v with
    | .str s => .ok { p with country := s }
    | .null => .ok p
    | _ => .error "json: cannot unmarshal value into field country_id of type string"
  else .ok p

/-- Fold of setPredField over the fields of a JSON object. -/
def decodePredFields (p : Prediction) : List (String × Json) → Except String Prediction
  | [] => .ok p
  | (k, v) :: rest =>
    match setPredField p k v with
    | .error e => .error e
    | .ok p2 => decodePredFields p2 rest

/-- json.Unmarshal into a Prediction: null is a no-op on the zero value,
an object is decoded field by field, anything else is an error. -/
def unmarshalPredictionJson : Json → Except String Prediction
  | .null => .ok zeroPrediction
  | .obj fields => decodePredFields zeroPrediction fields
  | _ => .error "json: cannot unmarshal value into Go value of type agify.Prediction"

/-- Element-wise decoding of a JSON array into predictions. -/
def decodeElems : List Json → Except String (List Prediction)
  | [] => .ok []
  | j :: rest =>
    match unmarshalPredictionJson j with
    | .error e => .error e
    | .ok p =>
      match decodeElems rest with
      | .error e => .error e
      | .ok ps => .ok (p :: ps)

/-- json.Unmarshal into a slice of Predictions: null leaves the nil
slice, an array is decoded element-wise, anything else is an error. -/
def unmarshalPredictionsJson : Json → Except String (List Prediction)
  | .null => .ok []
  | .arr elems => decodeElems elems
  | _ => .error "json: cannot unmarshal value into Go value of type []agify.Prediction"

/-- Decoding one JSON object field into an errorResponse: tag error. -/
def setErrField (e : ErrorResponse) (key : String) (v : Json) : Except String ErrorResponse :=
  if key = "error" then
    match v with
    | .str s => .ok { e with error := s }
    | .null => .ok e
    | _ => .error "json: cannot unmarshal value into field error of type string"
  else .ok e

/-- Fold of setErrField over the fields of a JSON object. -/
def decodeErrFields (e : ErrorResponse) : List (String × Json) → Except String ErrorResponse
  | [] => .ok e
  | (k, v) :: rest =>
    match setErrField e k v with
    | .error msg => .error msg
    | .ok e2 => decodeErrFields e2 rest

/-- json.Unmarshal into an errorResponse. -/
def unmarshalErrorJson : Json → Except String ErrorResponse
  | .null => .ok { error := "" }
  | .obj fields => decodeErrFields { error := "" } fields
  | _ => .error "json: cannot unmarshal value into Go value of type agify.errorResponse"

/-- json.Unmarshal on raw bytes: invalid bytes are a syntax error,
JSON bytes go to the typed decoder. -/
def unmarshalBytes (dec : Json → Except String α) : Bytes → Except String α
  | .invalid _ => .error "invalid character looking for beginning of value"
  | .json j => dec j

/-- json.Unmarshal on a possibly-nil byte slice: a nil slice is the
syntax error on empty input. -/
def unmarshalOpt (dec : Json → Except String α) : Option Bytes → Except String α
  | none => .error "unexpected end of JSON input"
  | some b => unmarshalBytes dec b

/-- get makes the API request and returns the response body (source
part_002 lines 173-205).  It calls the package-level http.Get, hence the
environment default transport; the client receiver's http field is not
consulted, exactly as in the source.  On transport failure: (nil, nil,
err).  On any response: RateLimit from the three headers; non-200 status
decodes the body as errorResponse and returns its message as an error
(or the decode error); 200 returns the read error if reading failed,
else the body. -/
def Client.get (env : HttpEnv) (_client : Client) (req : Request) :
    Option Bytes × Option RateLimit × Option GoErr :=
  match env.defaultTransport req with
  | .failure msg => (none, none, some (.transportErr msg))
  | .response resp =>
    let rateLimit := mkRateLimit resp.headers
    if resp.statusCode ≠ 200 then
      match unmarshalBytes unmarshalErrorJson resp.bodyRead with
      | .error msg => (none, some rateLimit, some (.jsonErr msg))
      | .ok er => (none, some rateLimit, some (.errorsNew er.error))
    else
      match resp.readErr with
      | some msg => (none, some rateLimit, some (.readErr msg))
      | none => (some resp.bodyRead, some rateLimit, none)

/-- The request built by PredictWithCountry (source part_002 lines
104-117): parse the base URL (none models the nil pointer of a failed
parse), take its existing query, add name, add country_id only when the
country is non-empty, add apikey only when configured. -/
def singleRequest (client : Client) (name country : String) : Option Request :=
  match urlParse client.baseUrl with
  | none => none
  | some url =>
    let values := parseQuery url.rawQuery
    let values := valuesAdd values "name" name
    let values := if country ≠ "" then valuesAdd values "country_id" country else values
    let values := if client.apiKey ≠ "" then valuesAdd values "apikey" client.apiKey else values
    some { base := url.base, values := values }

/-- The request built by BatchPredictWithCountry (source part_002 lines
142-155): country_id is added unconditionally, then one name[] pair per
input name in order, then apikey when configured. -/
def batchRequest (client : Client) (names : List String) (country : String) : Option Request :=
  match urlParse client.baseUrl with
  | none => none
  | some url =>
    let values := parseQuery url.rawQuery
    let values := valuesAdd values "country_id" country
    let values := names.foldl (fun vs n => valuesAdd vs "name[]" n) values
    let values := if client.apiKey ≠ "" then valuesAdd values "apikey" client.apiKey else values
    some { base := url.base, values := values }

/-- PredictWithCountry (source part_002 lines 103-133).  A failed URL
parse is a nil-pointer panic at url.Query(), since the parse error is
discarded.  Otherwise delegate to get; on error pass it through with a
nil prediction; on success unmarshal the body as one Prediction. -/
def Client.predictWithCountry (env : HttpEnv) (client : Client) (name country : String) :
    Except Crash (Option Prediction × Option RateLimit × Option GoErr) :=
  match singleRequest client name country with
  | none => .error .nilDeref
  | some req =>
    match Client.get env client req with
    | (_, rateLimit, some err) => .ok (none, rateLimit, some err)
    | (body, rateLimit, none) =>
      match unmarshalOpt unmarshalPredictionJson body with
      | .error msg => .ok (none, rateLimit, some (.jsonErr msg))
      | .ok p => .ok (some p, rateLimit, none)

/-- Predict (source part_002 lines 98-100): PredictWithCountry with the
empty country. -/
def Client.predict (env : HttpEnv) (client : Client) (name : String) :
    Except Crash (Option Prediction × Option RateLimit × Option GoErr) :=
  Client.predictWithCountry env client name ""

/-- BatchPredictWithCountry (source part_002 lines 141-170). -/
def Client.batchPredictWithCountry (env : HttpEnv) (client : Client)
    (names : List String) (country : String) :
    Except Crash (Option (List Prediction) × Option RateLimit × Option GoErr) :=
  match batchRequest client names country with
  | none => .error .nilDeref
  | some req =>
    match Client.get env client req with
    | (_, rateLimit, some err) => .ok (none, rateLimit, some err)
    | (body, rateLimit, none) =>
      match unmarshalOpt unmarshalPredictionsJson body with
      | .error msg => .ok (none, rateLimit, some (.jsonErr msg))
      | .ok ps => .ok (some ps, rateLimit, none)

/-- BatchPredict (source part_002 lines 136-138). -/
def Client.batchPredict (env : HttpEnv) (client : Client) (names : List String) :
    Except Crash (Option (List Prediction) × Option RateLimit × Option GoErr) :=
  Client.batchPredictWithCountry env client names ""

/-! Helper lemmas about query values and decoding. -/

theorem countKey_eq_length_getAll (vs : Values) (k : String) :
    countKey vs k = (getAll vs k).length := by
  simp [countKey, getAll]

theorem setPredField_name_str (p : Prediction) (s : String) :
    setPredField p "name" (.str s) = .ok { p with name := s } := rfl

theorem setPredField_age_num (p : Prediction) (n : Int) :
    setPredField p "age" (.num n) = .ok { p with age := n } := rfl

theorem setPredField_count_num (p : Prediction) (n : Int) :
    setPredField p "count" (.num n) = .ok { p with count := n } := rfl

theorem setPredField_country_str (p : Prediction) (s : String) :
    setPredField p "country_id" (.str s) = .ok { p with country := s } := rfl

theorem getAll_append (vs ws : Values) (k : String) :
    getAll (vs ++ ws) k = getAll vs k ++ getAll ws k := by
  simp [getAll, List.filter_append]

theorem foldl_names_eq (names : List String) (vs : Values) :
    names.foldl (fun a n => valuesAdd a "name[]" n) vs
      = vs ++ names.map (fun n => ("name[]", n)) := by
  induction names generalizing vs with
  | nil => simp
  | cons n rest ih =>
    rw [List.foldl_cons, ih, valuesAdd, List.append_assoc, List.singleton_append, List.map_cons]

theorem getAll_namePairs (names : List String) :
    getAll (names.map (fun n => ("name[]", n))) "name[]" = names := by
  induction names with
  | nil => rfl
  | cons n rest ih => simpa [getAll, List.filter_cons] using ih

theorem getAll_namePairs_ne (names : List String) (k : String) (h : ("name[]" : String) ≠ k) :
    getAll (names.map (fun n => ("name[]", n))) k = [] := by
  induction names with
  | nil => rfl
  | cons n rest ih => simp [getAll, List.filter_cons, h] at ih ⊢

theorem decodeElems_length (elems : List Json) (ps : List Prediction)
    (h : decodeElems elems = .ok ps) : ps.length = elems.length := by
  induction elems generalizing ps with
  | nil =>
    simp [decodeElems] at h
    simp [← h]
  | cons j rest ih =>
    rw [decodeElems] at h
    cases h1 : unmarshalPredictionJson j with
    | error e => rw [h1] at h; exact absurd h (by simp)
    | ok p =>
      rw [h1] at h
      cases h2 : decodeElems rest with
      | error e => rw [h2] at h; exact absurd h (by simp)
      | ok ps2 =>
        rw [h2] at h
        cases h
        simpa using ih ps2 h2

/-! Concrete transports and clients used by the witnesses, mirroring the
mocked servers of the test file. -/

/-- The mocked success response of the test server: status 200, the three
rate-limit headers, and the documented example body. -/
def demoOkResp : HttpResponse :=
  { statusCode := 200,
    headers := [("X-Rate-Limit-Limit", "1000"), ("X-Rate-Limit-Remaining", "728"),
                ("X-Rate-Reset", "15281")],
    bodyRead := .json (.obj [("name", .str "michael"), ("age", .num 70),
                             ("count", .num 875), ("country_id", .str "US")]),
    readErr := none }

/-- A transport answering every request with the mocked success response. -/
def demoOkTransport : Transport := fun _ => .response demoOkResp

/-- The mocked 401 response: body is the documented error payload. -/
def demo401Resp : HttpResponse :=
  { statusCode := 401, headers := [],
    bodyRead := .json (.obj [("error", .str "Invalid API key")]), readErr := none }

/-- A transport answering every request with the mocked 401 response. -/
def demo401Transport : Transport := fun _ => .response demo401Resp

/-- A transport on which every request fails at the network level. -/
def demoDownTransport : Transport := fun _ => .failure "connection refused"

/-- C1: for every single-name predict call where the transport returns a
200 response whose body is the JSON object with fields name, age, count
and country_id and whose rate-limit headers are given, the returned
Prediction is present with exactly those field values, the returned
RateLimit carries the three header values verbatim, and the error is
nil. -/
theorem predict_success_decodes_fields (T : Transport) (client : Client)
    (name country : String) (req : Request)
    (hreq : singleRequest client name country = some req)
    (nm co ll rr rs : String) (a c : Int)
    (hT : T req = .response
      { statusCode := 200,
        headers := [("X-Rate-Limit-Limit", ll), ("X-Rate-Limit-Remaining", rr),
                    ("X-Rate-Reset", rs)],
        bodyRead := .json (.obj [("name", .str nm), ("age", .num a),
                                 ("count", .num c), ("country_id", .str co)]),
        readErr := none }) :
    Client.predictWithCountry ⟨T⟩ client name country =
      .ok (some { name := nm, age := a, count := c, country := co },
           some { limit := ll, remaining := rr, reset := rs }, none) := by
  simp [Client.predictWithCountry, hreq, Client.get, hT, mkRateLimit, headerGet,
    unmarshalOpt, unmarshalBytes, unmarshalPredictionJson, decodePredFields,
    setPredField_name_str, setPredField_age_num, setPredField_count_num,
    setPredField_country_str, zeroPrediction]

/-- C1 witness: the theorem applied to the mocked test server call. -/
theorem predict_success_decodes_fields_witness :
    Client.predictWithCountry ⟨demoOkTransport⟩
        (newClient ⟨demoOkTransport⟩ [withUrl "http://h"]) "michael" "" =
      .ok (some { name := "michael", age := 70, count := 875, country := "US" },
           some { limit := "1000", remaining := "728", reset := "15281" }, none) :=
  predict_success_decodes_fields demoOkTransport
    (newClient ⟨demoOkTransport⟩ [withUrl "http://h"]) "michael" ""
    { base := "http://h", values := [("name", "michael")] } rfl
    "michael" "US" "1000" "728" "15281" 70 875 rfl

/-- C2: for every call (single or batch) where the transport returns a
response with a non-200 status, the result is a nil prediction, a
RateLimit populated from the three rate-limit headers, and an error that
is the decoded error payload message when the body decodes as an
ErrorPayload and the decode failure otherwise. -/
theorem non200_gives_error (T : Transport) (client : Client)
    (name country : String) (names : List String) (req1 req2 : Request)
    (resp : HttpResponse) (hs : resp.statusCode ≠ 200)
    (h1 : singleRequest client name country = some req1)
    (h2 : batchRequest client names country = some req2)
    (hT1 : T req1 = .response resp) (hT2 : T req2 = .response resp) :
    Client.predictWithCountry ⟨T⟩ client name country =
      .ok (none, some (mkRateLimit resp.headers), some
        (match unmarshalBytes unmarshalErrorJson resp.bodyRead with
         | .error msg => GoErr.jsonErr msg
         | .ok er => GoErr.errorsNew er.error)) ∧
    Client.batchPredictWithCountry ⟨T⟩ client names country =
      .ok (none, some (mkRateLimit resp.headers), some
        (match unmarshalBytes unmarshalErrorJson resp.bodyRead with
         | .error msg => GoErr.jsonErr msg
         | .ok er => GoErr.errorsNew er.error)) := by
  cases h : unmarshalBytes unmarshalErrorJson resp.bodyRead with
  | error msg =>
    exact ⟨by simp [Client.predictWithCountry, h1, Client.get, hT1, hs, h],
           by simp [Client.batchPredictWithCountry, h2, Client.get, hT2, hs, h]⟩
  | ok er =>
    exact ⟨by simp [Client.predictWithCountry, h1, Client.get, hT1, hs, h],
           by simp [Client.batchPredictWithCountry, h2, Client.get, hT2, hs, h]⟩

/-- C2 witness: the mocked 401 call with body error Invalid API key, for
one name and for a batch of two names. -/
theorem non200_gives_error_witness :
    Client.predictWithCountry ⟨demo401Transport⟩
        (newClient ⟨demo401Transport⟩ [withUrl "http://h"]) "michael" "" =
      .ok (none, some { limit := "", remaining := "", reset := "" },
           some (GoErr.errorsNew "Invalid API key")) ∧
    Client.batchPredictWithCountry ⟨demo401Transport⟩
        (newClient ⟨demo401Transport⟩ [withUrl "http://h"]) ["a", "b"] "" =
      .ok (none, some { limit := "", remaining := "", reset := "" },
           some (GoErr.errorsNew "Invalid API key")) :=
  non200_gives_error demo401Transport
    (newClient ⟨demo401Transport⟩ [withUrl "http://h"]) "michael" "" ["a", "b"]
    { base := "http://h", values := [("name", "michael")] }
    { base := "http://h", values := [("country_id", ""), ("name[]", "a"), ("name[]", "b")] }
    demo401Resp (by simp [demo401Resp]) rfl rfl rfl rfl

/-- C3: on network-level failure the shared get returns a nil body, a nil
RateLimit and the transport error; on every received response, whatever
the status, the returned RateLimit is present and built from the three
rate-limit headers. -/
theorem get_rate_limit_presence (env : HttpEnv) (client : Client) (req : Request) :
    (∀ msg, env.defaultTransport req = .failure msg →
      Client.get env client req = (none, none, some (.transportErr msg))) ∧
    (∀ resp, env.defaultTransport req = .response resp →
      (Client.get env client req).2.1 = some (mkRateLimit resp.headers)) := by
  refine ⟨fun msg h => ?_, fun resp h => ?_⟩
  · simp [Client.get, h]
  · by_cases h200 : resp.statusCode = 200
    · cases hre : resp.readErr <;> simp [Client.get, h, h200, hre]
    · cases hdec : unmarshalBytes unmarshalErrorJson resp.bodyRead <;>
        simp [Client.get, h, h200, hdec]

/-- C3 witness: a request that fails at the network level returns nil
body, nil RateLimit and the transport error. -/
theorem get_rate_limit_presence_witness :
    Client.get ⟨demoDownTransport⟩ (newClient ⟨demoDownTransport⟩ [])
        { base := "https://api.agify.io", values := [("name", "michael")] } =
      (none, none, some (.transportErr "connection refused")) :=
  (get_rate_limit_presence ⟨demoDownTransport⟩ (newClient ⟨demoDownTransport⟩ [])
    { base := "https://api.agify.io", values := [("name", "michael")] }).1
    "connection refused" rfl

theorem countKey_append (vs ws : Values) (k : String) :
    countKey (vs ++ ws) k = countKey vs k + countKey ws k := by
  simp [countKey, List.filter_append]

theorem getAll_nil (k : String) : getAll [] k = [] := rfl

theorem getAll_singleton (k1 v k : String) :
    getAll [(k1, v)] k = if k1 = k then [v] else [] := by
  by_cases h : k1 = k <;> simp [getAll, List.filter_cons, h]

theorem getAll_cons (kv : String × String) (vs : Values) (k : String) :
    getAll (kv :: vs) k = (if kv.1 = k then [kv.2] else []) ++ getAll vs k := by
  by_cases h : kv.1 = k <;> simp [getAll, List.filter_cons, h]

theorem foldl_names_eq_app (names : List String) (vs : Values) :
    names.foldl (fun a n => a ++ [("name[]", n)]) vs
      = vs ++ names.map (fun n => ("name[]", n)) :=
  foldl_names_eq names vs

theorem countKey_namePairs_ne (names : List String) (k : String)
    (h : ("name[]" : String) ≠ k) :
    countKey (names.map (fun n => ("name[]", n))) k = 0 := by
  simp [countKey_eq_length_getAll, getAll_namePairs_ne names k h]

/-- Closed form of the single-name request builder when the base URL
parses and carries no query of its own. -/
theorem singleRequest_eq (client : Client) (u : URL)
    (hu : urlParse client.baseUrl = some u) (hq : parseQuery u.rawQuery = [])
    (name country : String) :
    singleRequest client name country = some
      { base := u.base,
        values := [("name", name)]
          ++ (if country = "" then [] else [("country_id", country)])
          ++ (if client.apiKey = "" then [] else [("apikey", client.apiKey)]) } := by
  by_cases hc : country = "" <;> by_cases hk : client.apiKey = "" <;>
    simp [singleRequest, hu, hq, valuesAdd, hc, hk]

/-- Closed form of the batch request builder when the base URL parses
and carries no query of its own. -/
theorem batchRequest_eq (client : Client) (u : URL)
    (hu : urlParse client.baseUrl = some u) (hq : parseQuery u.rawQuery = [])
    (names : List String) (country : String) :
    batchRequest client names country = some
      { base := u.base,
        values := [("country_id", country)]
          ++ names.map (fun n => ("name[]", n))
          ++ (if client.apiKey = "" then [] else [("apikey", client.apiKey)]) } := by
  by_cases hk : client.apiKey = "" <;>
    simp [batchRequest, hu, hq, valuesAdd, foldl_names_eq, foldl_names_eq_app, hk]

/-- C4: the single-name builder adds the country_id parameter exactly
when the country is non-empty, while the batch builder adds country_id
unconditionally, including for the empty country. -/
theorem country_id_single_vs_batch (client : Client) (u : URL)
    (hu : urlParse client.baseUrl = some u) (hq : parseQuery u.rawQuery = [])
    (name country : String) (names : List String) :
    (∃ req, singleRequest client name country = some req ∧
      countKey req.values "country_id" = if country = "" then 0 else 1) ∧
    (∃ req, batchRequest client names country = some req ∧
      countKey req.values "country_id" = 1) := by
  refine ⟨⟨_, singleRequest_eq client u hu hq name country, ?_⟩,
          ⟨_, batchRequest_eq client u hu hq names country, ?_⟩⟩
  · by_cases hc : country = "" <;> by_cases hk : client.apiKey = "" <;>
      simp [countKey_append, countKey, List.filter_cons, hc, hk]
  · by_cases hk : client.apiKey = "" <;>
      simp [countKey_append, countKey_namePairs_ne, countKey, List.filter_cons, hk]

/-- C4 witness: a client with an API key, a non-empty country on the
single path and the empty country on the batch path. -/
theorem country_id_single_vs_batch_witness :
    (∃ req, singleRequest (newClient ⟨demoOkTransport⟩ [withUrl "http://h", withApiKey "key"])
        "michael" "US" = some req ∧ countKey req.values "country_id" = 1) ∧
    (∃ req, batchRequest (newClient ⟨demoOkTransport⟩ [withUrl "http://h", withApiKey "key"])
        ["michael"] "" = some req ∧ countKey req.values "country_id" = 1) := by
  exact ⟨(country_id_single_vs_batch
      (newClient ⟨demoOkTransport⟩ [withUrl "http://h", withApiKey "key"])
      { base := "http://h", rawQuery := "" } rfl rfl "michael" "US" ["michael"]).1,
    (country_id_single_vs_batch
      (newClient ⟨demoOkTransport⟩ [withUrl "http://h", withApiKey "key"])
      { base := "http://h", rawQuery := "" } rfl rfl "michael" "" ["michael"]).2⟩

/-- C5: the batch builder emits exactly one name[] parameter per input
name, in input order (so n inputs give n parameters, including n = 0);
decoding an n-element JSON success array yields an n-element result
list; and the empty input list is not rejected: the request is issued
and a successful response is passed through unmodified. -/
theorem batch_names_params (client : Client) (u : URL)
    (hu : urlParse client.baseUrl = some u) (hq : parseQuery u.rawQuery = [])
    (names : List String) (country : String) :
    (∃ req, batchRequest client names country = some req ∧
      getAll req.values "name[]" = names ∧
      countKey req.values "name[]" = names.length) ∧
    (∀ elems ps, unmarshalPredictionsJson (.arr elems) = .ok ps →
      ps.length = elems.length) ∧
    (∀ (T : Transport) (req : Request) (resp : HttpResponse) (ps : List Prediction),
      batchRequest client [] country = some req → T req = .response resp →
      resp.statusCode = 200 → resp.readErr = none →
      unmarshalBytes unmarshalPredictionsJson resp.bodyRead = .ok ps →
      Client.batchPredictWithCountry ⟨T⟩ client [] country =
        .ok (some ps, some (mkRateLimit resp.headers), none)) := by
  refine ⟨⟨_, batchRequest_eq client u hu hq names country, ?_, ?_⟩, ?_, ?_⟩
  · by_cases hk : client.apiKey = "" <;>
      simp [getAll_append, getAll_cons, getAll_namePairs, getAll_singleton, getAll_nil, hk]
  · by_cases hk : client.apiKey = "" <;>
      simp [countKey_eq_length_getAll, getAll_append, getAll_cons, getAll_namePairs,
        getAll_singleton, getAll_nil, hk]
  · exact fun elems ps h => decodeElems_length elems ps h
  · intro T req resp ps hreq hT h200 hre hdec
    simp [Client.batchPredictWithCountry, hreq, Client.get, hT, h200, hre,
      unmarshalOpt, hdec]

/-- C5 witness: three names give three name[] parameters in order, and
the three-element mocked array decodes to three results. -/
theorem batch_names_params_witness :
    (∃ req, batchRequest (newClient ⟨demoOkTransport⟩ [withUrl "http://h"])
        ["michael", "matthew", "jane"] "" = some req ∧
      getAll req.values "name[]" = ["michael", "matthew", "jane"] ∧
      countKey req.values "name[]" = 3) ∧
    (∀ ps, unmarshalPredictionsJson
        (.arr [.obj [("name", .str "michael")], .obj [("name", .str "matthew")],
               .obj [("name", .str "jane")]]) = .ok ps → ps.length = 3) :=
  ⟨(batch_names_params (newClient ⟨demoOkTransport⟩ [withUrl "http://h"])
      { base := "http://h", rawQuery := "" } rfl rfl ["michael", "matthew", "jane"] "").1,
   fun ps h => (batch_names_params (newClient ⟨demoOkTransport⟩ [withUrl "http://h"])
      { base := "http://h", rawQuery := "" } rfl rfl ["michael", "matthew", "jane"] "").2.1
      _ ps h⟩

/-- C6: a client built with a base URL override and an API key override
records both; every request either builder produces targets the
configured base URL and carries apikey=key exactly once; with no API
key configured neither builder adds an apikey parameter. -/
theorem custom_url_and_apikey (env : HttpEnv) (u k : String) (pu : URL)
    (hk : k ≠ "") (hpu : urlParse u = some pu) (hq : parseQuery pu.rawQuery = [])
    (name country : String) (names : List String) :
    ((newClient env [withUrl u, withApiKey k]).baseUrl = u ∧
     (newClient env [withUrl u, withApiKey k]).apiKey = k) ∧
    (∃ req, singleRequest (newClient env [withUrl u, withApiKey k]) name country = some req ∧
      req.base = pu.base ∧ getAll req.values "apikey" = [k]) ∧
    (∃ req, batchRequest (newClient env [withUrl u, withApiKey k]) names country = some req ∧
      req.base = pu.base ∧ getAll req.values "apikey" = [k]) ∧
    (∃ req, singleRequest (newClient env [withUrl u]) name country = some req ∧
      req.base = pu.base ∧ countKey req.values "apikey" = 0) ∧
    (∃ req, batchRequest (newClient env [withUrl u]) names country = some req ∧
      req.base = pu.base ∧ countKey req.values "apikey" = 0) := by
  refine ⟨⟨rfl, rfl⟩,
    ⟨_, singleRequest_eq (newClient env [withUrl u, withApiKey k]) pu hpu hq name country,
      rfl, ?_⟩,
    ⟨_, batchRequest_eq (newClient env [withUrl u, withApiKey k]) pu hpu hq names country,
      rfl, ?_⟩,
    ⟨_, singleRequest_eq (newClient env [withUrl u]) pu hpu hq name country, rfl, ?_⟩,
    ⟨_, batchRequest_eq (newClient env [withUrl u]) pu hpu hq names country, rfl, ?_⟩⟩
  · have hak : (newClient env [withUrl u, withApiKey k]).apiKey = k := rfl
    rw [hak]
    by_cases hc : country = "" <;>
      simp [getAll_append, getAll, List.filter_cons, hc, hk]
  · have hak : (newClient env [withUrl u, withApiKey k]).apiKey = k := rfl
    rw [hak]
    simp [getAll_append, getAll_namePairs_ne, getAll, List.filter_cons, hk]
  · have hak : (newClient env [withUrl u]).apiKey = "" := rfl
    rw [hak]
    by_cases hc : country = "" <;>
      simp [countKey_append, countKey, List.filter_cons, hc]
  · have hak : (newClient env [withUrl u]).apiKey = "" := rfl
    rw [hak]
    simp [countKey_append, countKey_namePairs_ne, countKey, List.filter_cons]

/-- C6 witness: the theorem at the test configuration with key
test-key. -/
theorem custom_url_and_apikey_witness :
    ((newClient ⟨demoOkTransport⟩ [withUrl "http://h", withApiKey "test-key"]).baseUrl
        = "http://h" ∧
     (newClient ⟨demoOkTransport⟩ [withUrl "http://h", withApiKey "test-key"]).apiKey
        = "test-key") ∧
    (∃ req, singleRequest (newClient ⟨demoOkTransport⟩ [withUrl "http://h", withApiKey "test-key"])
        "michael" "" = some req ∧
      req.base = "http://h" ∧ getAll req.values "apikey" = ["test-key"]) :=
  ⟨(custom_url_and_apikey ⟨demoOkTransport⟩ "http://h" "test-key"
      { base := "http://h", rawQuery := "" } (by simp) rfl rfl "michael" "" []).1,
   (custom_url_and_apikey ⟨demoOkTransport⟩ "http://h" "test-key"
      { base := "http://h", rawQuery := "" } (by simp) rfl rfl "michael" "" []).2.1⟩

/-- An injected transport that would answer every request with an empty
200 response carrying a null JSON body. -/
def demoInjectedTransport : Transport := fun _ =>
  .response { statusCode := 200, headers := [], bodyRead := .json .null, readErr := none }

/-- C7: the injected transport handle is recorded in the client but the
request is issued through the package default transport.  With a
default transport on which every request fails and an injected
transport on which every request succeeds, the call fails; had the
injected transport been consulted, the same call would have succeeded
(third conjunct).  This refutes the claim that every GET goes through
the injected handle. -/
theorem with_client_transport_ignored :
    (newClient ⟨demoDownTransport⟩
        [withUrl "http://h", withClient demoInjectedTransport]).http
      = demoInjectedTransport ∧
    Client.predict ⟨demoDownTransport⟩
        (newClient ⟨demoDownTransport⟩ [withUrl "http://h", withClient demoInjectedTransport])
        "michael" =
      .ok (none, none, some (.transportErr "connection refused")) ∧
    Client.predict ⟨demoInjectedTransport⟩
        (newClient ⟨demoInjectedTransport⟩ [withUrl "http://h"]) "michael" =
      .ok (some zeroPrediction, some (mkRateLimit []), none) :=
  ⟨rfl, rfl, rfl⟩

/-- C8: a predict or batch-predict call on a client whose base URL
contains an ASCII control character does crash: url.Parse fails, the
error is discarded, and url.Query() dereferences the nil pointer.  The
claim that such calls never crash and surface the malformed URL as a
returned error is therefore false on the code. -/
theorem malformed_base_url_crashes :
    Client.predictWithCountry ⟨demoDownTransport⟩
        (newClient ⟨demoDownTransport⟩ [withUrl "http://h\n"]) "michael" "" =
      .error .nilDeref ∧
    Client.batchPredictWithCountry ⟨demoDownTransport⟩
        (newClient ⟨demoDownTransport⟩ [withUrl "http://h\n"]) ["michael"] "" =
      .error .nilDeref :=
  ⟨rfl, rfl⟩

/-- C9: two predict calls on the same client with the same inputs against
the same transport environment that both succeed return field-for-field
identical Prediction and RateLimit values; the client value itself is
immutable, so no state can accumulate between the calls. -/
theorem predict_round_trip (env : HttpEnv) (client : Client) (name country : String)
    (p1 p2 : Prediction) (rl1 rl2 : RateLimit)
    (h1 : Client.predictWithCountry env client name country = .ok (some p1, some rl1, none))
    (h2 : Client.predictWithCountry env client name country = .ok (some p2, some rl2, none)) :
    p1.name = p2.name ∧ p1.age = p2.age ∧ p1.count = p2.count ∧ p1.country = p2.country ∧
    rl1.limit = rl2.limit ∧ rl1.remaining = rl2.remaining ∧ rl1.reset = rl2.reset := by
  have h := h1.symm.trans h2
  simp only [Except.ok.injEq, Prod.mk.injEq, Option.some.injEq, and_true] at h
  obtain ⟨hp, hrl⟩ := h
  subst hp
  subst hrl
  exact ⟨rfl, rfl, rfl, rfl, rfl, rfl, rfl⟩

/-- C9 witness: the mocked success call made twice yields the same
decoded fields both times. -/
theorem predict_round_trip_witness :
    Client.predictWithCountry ⟨demoOkTransport⟩
        (newClient ⟨demoOkTransport⟩ [withUrl "http://h"]) "michael" "" =
      .ok (some { name := "michael", age := 70, count := 875, country := "US" },
           some { limit := "1000", remaining := "728", reset := "15281" }, none) ∧
    ({ name := "michael", age := 70, count := 875, country := "US" } : Prediction).age
      = ({ name := "michael", age := 70, count := 875, country := "US" } : Prediction).age :=
  ⟨rfl,
   (predict_round_trip ⟨demoOkTransport⟩ (newClient ⟨demoOkTransport⟩ [withUrl "http://h"])
      "michael" ""
      { name := "michael", age := 70, count := 875, country := "US" }
      { name := "michael", age := 70, count := 875, country := "US" }
      { limit := "1000", remaining := "728", reset := "15281" }
      { limit := "1000", remaining := "728", reset := "15281" } rfl rfl).2.1⟩

/-- C10: on a non-200 response whose body read failed, the read error is
discarded: the returned error is the JSON decode outcome of the partial
body that was read, independent of the read error, and the read-error
kind never appears in the result of a non-200 response. -/
theorem non200_read_error_discarded (T : Transport) (client : Client) (req : Request)
    (resp : HttpResponse) (hT : T req = .response resp) (hs : resp.statusCode ≠ 200) :
    Client.get ⟨T⟩ client req =
      (none, some (mkRateLimit resp.headers),
        some (match unmarshalBytes unmarshalErrorJson resp.bodyRead with
              | .error msg => GoErr.jsonErr msg
              | .ok er => GoErr.errorsNew er.error)) ∧
    ∀ m, (Client.get ⟨T⟩ client req).2.2 ≠ some (GoErr.readErr m) := by
  cases h : unmarshalBytes unmarshalErrorJson resp.bodyRead <;>
    simp [Client.get, hT, hs, h]

/-- A 500 response whose body read failed midway: io.ReadAll returned
partial non-JSON bytes together with a read error. -/
def demoPartialResp : HttpResponse :=
  { statusCode := 500, headers := [], bodyRead := .invalid "partial",
    readErr := some "unexpected EOF" }

/-- A transport answering every request with the partial-read 500
response. -/
def demoPartialTransport : Transport := fun _ => .response demoPartialResp

/-- C10 witness: the partial-read 500 response yields the JSON decode
error of the partial body; the read error unexpected EOF is gone. -/
theorem non200_read_error_discarded_witness :
    Client.get ⟨demoPartialTransport⟩ (newClient ⟨demoPartialTransport⟩ [])
        { base := "http://h", values := [("name", "michael")] } =
      (none, some { limit := "", remaining := "", reset := "" },
       some (GoErr.jsonErr "invalid character looking for beginning of value")) :=
  (non200_read_error_discarded demoPartialTransport (newClient ⟨demoPartialTransport⟩ [])
    { base := "http://h", values := [("name", "michael")] } demoPartialResp rfl
    (by simp [demoPartialResp])).1
